import Mathlib

/-!
Verification of the core job-store operations of a PostgreSQL-backed job
manager ("steve"). The SQL statements and TypeScript functions of the source
are shallowly embedded as pure Lean functions: the job table is a `List Job`,
the attempt-log table a `List JobAttempt`, timestamps are epoch milliseconds
(`Int`), and `NOW()` is an explicit `now` parameter. Fallible computations
return `Except`.
-/

namespace Steve

/-- JOB_STATUS (jobs.ts): the five job states. -/
inductive JobStatus
  | pending
  | running
  | completed
  | failed
  | expired
  deriving DecidableEq, Repr

/-- ATTEMPT_STATUS (jobs.ts): terminal states of one logged attempt. -/
inductive AttemptStatus
  | success
  | error
  deriving DecidableEq, Repr

/-- A row of the job table (schema in job/_schema.ts). `started_at` and
`completed_at` are nullable columns, hence `Option`. -/
structure Job where
  id : Nat
  uid : String
  jobType : String
  status : JobStatus
  attempts : Nat
  max_attempts : Nat
  max_attempt_duration_ms : Nat
  backoff_strategy : String
  created_at : Int
  updated_at : Int
  run_at : Int
  started_at : Option Int
  completed_at : Option Int
  result : Option String
  deriving DecidableEq, Repr

/-- A row of the job_attempt_log table (schema in job/_schema.ts). -/
structure JobAttempt where
  id : Nat
  job_id : Nat
  attempt_number : Nat
  started_at : Int
  completed_at : Option Int
  status : Option AttemptStatus
  error_message : Option String
  error_details : Option String
  deriving DecidableEq, Repr

/-- Row eligibility in the claim subselect of `_claimNextJob`
(job/_claim-next.ts): `status = 'pending' AND run_at <= NOW()`. -/
def eligible (now : Int) (j : Job) : Bool :=
  j.status == JobStatus.pending && decide (j.run_at ≤ now)

/-- The column assignments of the claim UPDATE (job/_claim-next.ts):
`status = 'running', started_at = NOW(), updated_at = NOW(),
attempts = attempts + 1`. -/
def claimUpdate (now : Int) (j : Job) : Job :=
  { j with
      status := JobStatus.running
      started_at := some now
      updated_at := now
      attempts := j.attempts + 1 }

/-- Model of `_claimNextJob` (job/_claim-next.ts): the UPDATE targets the row whose id
is returned by `SELECT id ... WHERE status = 'pending' AND run_at <= NOW()
ORDER BY id ... LIMIT 1`, i.e. the eligible row of least id; `RETURNING *`
yields the updated row. Returns the claimed row (if any) and the table after
the statement. -/
def _claimNextJob (now : Int) (table : List Job) : Option Job × List Job :=
  match (table.filter (eligible now)).argmin Job.id with
  | none => (none, table)
  | some j =>
      (some (claimUpdate now j),
        table.map fun r => if r.id = j.id then claimUpdate now r else r)

theorem eligible_iff (now : Int) (j : Job) :
    eligible now j = true ↔ j.status = JobStatus.pending ∧ j.run_at ≤ now := by
  simp [eligible]

/-- C1: `_claimNextJob` selects the oldest (least-id) pending row whose
`run_at ≤ now`, marks it running with `started_at = updated_at = now` and
`attempts` incremented by exactly one, returns that updated row, and leaves
every other row unchanged; when no pending row with `run_at ≤ now` exists it
returns none and the table is unchanged. `hnd`: ids are unique (SERIAL
PRIMARY KEY). -/
theorem claimNext_spec (now : Int) (table : List Job)
    (hnd : (table.map Job.id).Nodup) :
    (table.filter (eligible now) = [] → _claimNextJob now table = (none, table)) ∧
    (table.filter (eligible now) ≠ [] →
      ∃ j, j ∈ table ∧ j.status = JobStatus.pending ∧ j.run_at ≤ now ∧
        (∀ r ∈ table, r.status = JobStatus.pending → r.run_at ≤ now → j.id ≤ r.id) ∧
        (_claimNextJob now table).1 = some
          { j with
              status := JobStatus.running
              started_at := some now
              updated_at := now
              attempts := j.attempts + 1 } ∧
        claimUpdate now j ∈ (_claimNextJob now table).2 ∧
        (∀ r ∈ table, r.id ≠ j.id → r ∈ (_claimNextJob now table).2) ∧
        (∀ r, r ∈ (_claimNextJob now table).2 →
          r = claimUpdate now j ∨ (r ∈ table ∧ r.id ≠ j.id))) := by
  constructor
  · intro hempty
    simp [_claimNextJob, hempty]
  · intro hne
    obtain ⟨j, hj⟩ : ∃ j, (table.filter (eligible now)).argmin Job.id = some j := by
      rcases h : (table.filter (eligible now)).argmin Job.id with _ | j
      · exact absurd (List.argmin_eq_none.mp h) hne
      · exact ⟨j, rfl⟩
    have hjmem : j ∈ table.filter (eligible now) := List.argmin_mem hj
    have hjtab : j ∈ table := (List.mem_filter.mp hjmem).1
    have hjelig : eligible now j = true := (List.mem_filter.mp hjmem).2
    obtain ⟨hjpend, hjrun⟩ := (eligible_iff now j).mp hjelig
    refine ⟨j, hjtab, hjpend, hjrun, ?_, ?_, ?_, ?_, ?_⟩
    · intro r hr hrpend hrrun
      have hrfil : r ∈ table.filter (eligible now) :=
        List.mem_filter.mpr ⟨hr, (eligible_iff now r).mpr ⟨hrpend, hrrun⟩⟩
      exact List.le_of_mem_argmin hrfil hj
    · simp [_claimNextJob, hj, claimUpdate]
    · simp only [_claimNextJob, hj]
      have : claimUpdate now j =
          (fun r => if r.id = j.id then claimUpdate now r else r) j := by simp
      rw [this]
      exact List.mem_map_of_mem _ hjtab
    · intro r hr hrid
      simp only [_claimNextJob, hj]
      have : r = (fun s => if s.id = j.id then claimUpdate now s else s) r := by
        simp [hrid]
      rw [this]
      exact List.mem_map_of_mem _ hr
    · intro r hr
      simp only [_claimNextJob, hj, List.mem_map] at hr
      obtain ⟨s, hs, hsr⟩ := hr
      by_cases hid : s.id = j.id
      · left
        have : s = j := List.inj_on_of_nodup_map hnd hs hjtab hid
        subst this
        simp [hid] at hsr
        exact hsr.symm
      · right
        simp [hid] at hsr
        exact hsr ▸ ⟨hs, hsr ▸ hid⟩

/-- Concrete pending row used by the C1 witness. -/
def c1JobA : Job :=
  { id := 2
    uid := "a"
    jobType := "t"
    status := JobStatus.pending
    attempts := 0
    max_attempts := 3
    max_attempt_duration_ms := 0
    backoff_strategy := "exp"
    created_at := 0
    updated_at := 0
    run_at := 0
    started_at := none
    completed_at := none
    result := none }

/-- Second concrete pending row (larger id) used by the C1 witness. -/
def c1JobB : Job :=
  { c1JobA with id := 5, uid := "b" }

/-- Witness for C1: on the concrete table `[c1JobB, c1JobA]` at `now = 10`,
the claim picks the least-id eligible row `c1JobA` and keeps `c1JobB`. -/
theorem claimNext_spec_witness :
    (_claimNextJob 10 [c1JobB, c1JobA]).1 = some (claimUpdate 10 c1JobA) ∧
    c1JobB ∈ (_claimNextJob 10 [c1JobB, c1JobA]).2 := by
  obtain ⟨j, hmem, hpend, hrun, hmin, h1, h2, h3, h4⟩ :=
    (claimNext_spec 10 [c1JobB, c1JobA] (by decide)).2 (by decide)
  have hj : j = c1JobA := by
    rcases List.mem_pair.mp hmem with h | h
    · subst h
      exact absurd (hmin c1JobA (by decide) (by decide) (by decide)) (by decide)
    · exact h
  subst hj
  exact ⟨h1, h3 c1JobB (by decide) (by decide)⟩

/-- The backoff computation inside `_handleJobFailure` (job/_handle-failure.ts
lines 47-62): the strategy is checked against the whitelist (exp, none); an
unknown strategy logs a warning and falls back to exp; exp yields
`2 ^ attempts * 1000` milliseconds, i.e. `2 ^ attempts` seconds; none leaves
the delay at 0. Returns the pair (backoffMs, warned), where the flag records
that this occurrence logged the unknown-strategy warning. -/
def computeBackoff (strategy : String) (attempts : Nat) : Nat × Bool :=
  let whitelisted := strategy == "exp" || strategy == "none"
  let s := if whitelisted then strategy else "exp"
  let ms := if s == "exp" then 2 ^ attempts * 1000 else 0
  (ms, !whitelisted)

/-- Model of `_logAttemptError` (job/_log-attempt.ts): UPDATE the attempt row with id
`attemptId`, setting `status = 'error'`, `completed_at = NOW()`,
`error_message` and `error_details`. -/
def _logAttemptError (now : Int) (attemptId : Nat) (errMessage : String)
    (errDetails : Option String) (alog : List JobAttempt) : List JobAttempt :=
  alog.map fun a =>
    if a.id = attemptId then
      { a with
          status := some AttemptStatus.error
          completed_at := some now
          error_message := some errMessage
          error_details := errDetails }
    else a

/-- Model of `_handleJobFailure` (job/_handle-failure.ts): inside one transaction, log
the attempt as error; then if `job.attempts >= job.max_attempts` mark the job
failed with `completed_at = updated_at = NOW()`, otherwise requeue it as
pending with `run_at = NOW() + backoffMs` and `updated_at = NOW()`. Returns
the updated job row (RETURNING *) and the updated attempt log. -/
def _handleJobFailure (now : Int) (job : Job) (attemptId : Nat)
    (errMessage : String) (errDetails : Option String)
    (alog : List JobAttempt) : Job × List JobAttempt :=
  let alog1 := _logAttemptError now attemptId errMessage errDetails alog
  if job.max_attempts ≤ job.attempts then
    ({ job with
        status := JobStatus.failed
        completed_at := some now
        updated_at := now }, alog1)
  else
    ({ job with
        status := JobStatus.pending
        run_at := now + ((computeBackoff job.backoff_strategy job.attempts).1 : Int)
        updated_at := now }, alog1)

/-- Helper: both branches of `_handleJobFailure` return the attempt log
produced by `_logAttemptError`. -/
theorem handleJobFailure_snd (now : Int) (jobRow : Job) (attemptId : Nat)
    (errMessage : String) (errDetails : Option String)
    (alog : List JobAttempt) :
    (_handleJobFailure now jobRow attemptId errMessage errDetails alog).2 =
      _logAttemptError now attemptId errMessage errDetails alog := by
  by_cases h : jobRow.max_attempts ≤ jobRow.attempts <;>
    simp [_handleJobFailure, h]

/-- Helper: `_handleJobFailure` records the row of the current attempt as an
error row with the given message and details. -/
theorem handleJobFailure_log_mem (now : Int) (jobRow : Job) (attemptId : Nat)
    (errMessage : String) (errDetails : Option String) (alog : List JobAttempt)
    (a : JobAttempt) (ha : a ∈ alog) (haid : a.id = attemptId) :
    { a with
        status := some AttemptStatus.error
        completed_at := some now
        error_message := some errMessage
        error_details := errDetails }
      ∈ (_handleJobFailure now jobRow attemptId errMessage errDetails alog).2 := by
  rw [handleJobFailure_snd]
  have : { a with
      status := some AttemptStatus.error
      completed_at := some now
      error_message := some errMessage
      error_details := errDetails } =
    (fun b => if b.id = attemptId then
      { b with
          status := some AttemptStatus.error
          completed_at := some now
          error_message := some errMessage
          error_details := errDetails }
      else b) a := by simp [haid]
  rw [this]
  exact List.mem_map_of_mem _ ha

/-- C2: on a failed attempt, `_handleJobFailure` records the attempt row as
error, then transitions the job to failed (with `completed_at = updated_at =
now`) when `attempts ≥ max_attempts`, and otherwise back to pending with
`run_at = now + backoff(attempts, strategy)` and `updated_at = now`; in both
cases the updated job row is the first component of the returned pair. -/
theorem handleJobFailure_spec (now : Int) (job : Job) (attemptId : Nat)
    (errMessage : String) (errDetails : Option String) (alog : List JobAttempt) :
    (∀ a ∈ alog, a.id = attemptId →
      { a with
          status := some AttemptStatus.error
          completed_at := some now
          error_message := some errMessage
          error_details := errDetails }
        ∈ (_handleJobFailure now job attemptId errMessage errDetails alog).2) ∧
    (job.max_attempts ≤ job.attempts →
      (_handleJobFailure now job attemptId errMessage errDetails alog).1 =
        { job with
            status := JobStatus.failed
            completed_at := some now
            updated_at := now }) ∧
    (job.attempts < job.max_attempts →
      (_handleJobFailure now job attemptId errMessage errDetails alog).1 =
        { job with
            status := JobStatus.pending
            run_at := now + ((computeBackoff job.backoff_strategy job.attempts).1 : Int)
            updated_at := now }) := by
  refine ⟨?_, ?_, ?_⟩
  · intro a ha haid
    exact handleJobFailure_log_mem now job attemptId errMessage errDetails alog a ha haid
  · intro h
    simp [_handleJobFailure, h]
  · intro h
    simp [_handleJobFailure, Nat.not_le.mpr h]

/-- Concrete job at its last allowed attempt, used by the C2 witness. -/
def c2JobMax : Job :=
  { c1JobA with
      id := 9
      uid := "m"
      status := JobStatus.running
      attempts := 3
      max_attempts := 3
      started_at := some 40 }

/-- Concrete job with attempts left, used by the C2 witness. -/
def c2JobRetry : Job :=
  { c2JobMax with id := 10, uid := "r", attempts := 1 }

/-- Concrete open attempt-log row used by the C2 witness. -/
def c2Att : JobAttempt :=
  { id := 7
    job_id := 9
    attempt_number := 3
    started_at := 40
    completed_at := none
    status := none
    error_message := none
    error_details := none }

/-- Witness for C2: both branches on concrete rows — exhausted attempts give
failed with `completed_at = 50`; one prior attempt with strategy exp gives
pending with `run_at = 50 + 2000`; the attempt row is recorded as error. -/
theorem handleJobFailure_spec_witness :
    (_handleJobFailure 50 c2JobMax 7 ("boomF") none [c2Att]).1 =
      { c2JobMax with
          status := JobStatus.failed
          completed_at := some 50
          updated_at := 50 } ∧
    (_handleJobFailure 50 c2JobRetry 7 ("boomF") none [c2Att]).1 =
      { c2JobRetry with
          status := JobStatus.pending
          run_at := 50 + 2000
          updated_at := 50 } ∧
    { c2Att with
        status := some AttemptStatus.error
        completed_at := some 50
        error_message := some ("boomF")
        error_details := none }
      ∈ (_handleJobFailure 50 c2JobMax 7 ("boomF") none [c2Att]).2 := by
  refine ⟨(handleJobFailure_spec 50 c2JobMax 7 ("boomF") none [c2Att]).2.1 (by decide),
    ((handleJobFailure_spec 50 c2JobRetry 7 ("boomF") none [c2Att]).2.2
      (by decide)).trans (by decide),
    (handleJobFailure_spec 50 c2JobMax 7 ("boomF") none [c2Att]).1 c2Att
      (by decide) rfl⟩

/-- C3: the retry backoff is a pure function of (attempts_so_far, strategy):
none yields 0 ms, exp yields `2 ^ attempts * 1000` ms (2^attempts seconds),
and any unknown strategy yields the exp value with the warning flag set for
that occurrence. -/
theorem computeBackoff_spec (strategy : String) (attempts : Nat) :
    computeBackoff ("none") attempts = (0, false) ∧
    computeBackoff ("exp") attempts = (2 ^ attempts * 1000, false) ∧
    (strategy ≠ "exp" → strategy ≠ "none" →
      computeBackoff strategy attempts = (2 ^ attempts * 1000, true)) := by
  refine ⟨by simp [computeBackoff], by simp [computeBackoff], ?_⟩
  intro h1 h2
  simp [computeBackoff, h1, h2]

/-- Witness for C3 at `attempts = 3` and the unknown strategy "bogus". -/
theorem computeBackoff_spec_witness :
    computeBackoff ("none") 3 = (0, false) ∧
    computeBackoff ("exp") 3 = (8000, false) ∧
    computeBackoff ("bogus") 3 = (8000, true) := by
  have h := computeBackoff_spec ("bogus") 3
  exact ⟨h.1, h.2.1.trans (by decide),
    (h.2.2 (by decide) (by decide)).trans (by decide)⟩

/-- Which side of the `Promise.race` inside `withTimeout` settles first. -/
inductive RaceWinner
  | handlerFirst
  | timerFirst
  deriving DecidableEq, Repr

/-- Default rejection message of `withTimeout` (utils/with-timeout.ts). -/
def timeoutDefaultMsg (timeoutMs : Nat) : String :=
  "Timed out after " ++ toString timeoutMs ++ " ms"

/-- Model of `withTimeout` (utils/with-timeout.ts) modelled on the race outcome: if the
handler settles first the wrapper yields the handler's outcome; if the timer
fires first the wrapper rejects with a TimeoutError carrying `errMessage`,
falling back to the default message when `errMessage` is absent or empty (the
JS `||`). The wrapper only abandons the wait; the handler task itself is not
terminated. -/
def withTimeout (fnOutcome : Except String String) (timeoutMs : Nat)
    (errMessage : Option String) : RaceWinner → Except String String
  | RaceWinner.handlerFirst => fnOutcome
  | RaceWinner.timerFirst =>
      Except.error (match errMessage with
        | some m => if m = "" then timeoutDefaultMsg timeoutMs else m
        | none => timeoutDefaultMsg timeoutMs)

/-- The handler-invocation step of `_executeJob` (job/_execute.ts lines
24-36): the handler is wrapped in `withTimeout(handler,
max_attempt_duration_ms, "Execution timed out")` exactly when
`job.max_attempt_duration_ms > 0`; otherwise the bare handler runs and no
timer exists, so the race-winner parameter is irrelevant. -/
def _executeHandler (job : Job) (fnOutcome : Except String String)
    (w : RaceWinner) : Except String String :=
  if 0 < job.max_attempt_duration_ms then
    withTimeout fnOutcome job.max_attempt_duration_ms (some ("Execution timed out")) w
  else fnOutcome

/-- C4: with `max_attempt_duration_ms > 0` the handler races a timer and a
timer win yields the error "Execution timed out", which the failure handler
then records on the attempt row as `status = error` with that
`error_message`; with `max_attempt_duration_ms = 0` the handler outcome
passes through unchanged whatever the race winner, since no timer exists. -/
theorem executeHandler_timeout_spec (now : Int) (job : Job)
    (fnOutcome : Except String String) (attemptId : Nat)
    (alog : List JobAttempt) :
    (0 < job.max_attempt_duration_ms →
      _executeHandler job fnOutcome RaceWinner.timerFirst =
        Except.error ("Execution timed out")) ∧
    (job.max_attempt_duration_ms = 0 →
      ∀ w, _executeHandler job fnOutcome w = fnOutcome) ∧
    (∀ a ∈ alog, a.id = attemptId →
      ∃ a' ∈ (_handleJobFailure now job attemptId ("Execution timed out") none alog).2,
        a'.status = some AttemptStatus.error ∧
        a'.error_message = some ("Execution timed out")) := by
  refine ⟨?_, ?_, ?_⟩
  · intro h
    simp [_executeHandler, h, withTimeout]
  · intro h w
    simp [_executeHandler, h]
  · intro a ha haid
    exact ⟨_, handleJobFailure_log_mem now job attemptId ("Execution timed out")
      none alog a ha haid, rfl, rfl⟩

/-- Concrete job with a 150 ms attempt deadline, used by the C4 witness. -/
def c4Job : Job :=
  { c1JobA with
      id := 11
      uid := "t1"
      status := JobStatus.running
      attempts := 1
      max_attempt_duration_ms := 150
      started_at := some 55 }

/-- Concrete job with no attempt deadline, used by the C4 witness. -/
def c4JobNoLimit : Job :=
  { c4Job with id := 12, uid := "t2", max_attempt_duration_ms := 0 }

/-- Concrete open attempt-log row used by the C4 witness. -/
def c4Att : JobAttempt :=
  { id := 8
    job_id := 11
    attempt_number := 1
    started_at := 55
    completed_at := none
    status := none
    error_message := none
    error_details := none }

/-- Witness for C4: the timer beating a successful handler yields the timeout
error, the error is recorded on the attempt row, and with deadline 0 both
race outcomes return the handler result untouched. -/
theorem executeHandler_timeout_spec_witness :
    _executeHandler c4Job (Except.ok ("x")) RaceWinner.timerFirst =
      Except.error ("Execution timed out") ∧
    (∃ a' ∈ (_handleJobFailure 60 c4Job 8 ("Execution timed out") none [c4Att]).2,
      a'.status = some AttemptStatus.error ∧
      a'.error_message = some ("Execution timed out")) ∧
    _executeHandler c4JobNoLimit (Except.ok ("x")) RaceWinner.handlerFirst =
      Except.ok ("x") ∧
    _executeHandler c4JobNoLimit (Except.ok ("x")) RaceWinner.timerFirst =
      Except.ok ("x") := by
  have h := executeHandler_timeout_spec 60 c4Job (Except.ok ("x")) 8 [c4Att]
  have h0 := executeHandler_timeout_spec 60 c4JobNoLimit (Except.ok ("x")) 8 [c4Att]
  exact ⟨h.1 (by decide), h.2.2 c4Att (by decide) rfl,
    h0.2.1 rfl RaceWinner.handlerFirst, h0.2.1 rfl RaceWinner.timerFirst⟩

/-- Model of `_logAttemptSuccess` (job/_log-attempt.ts): UPDATE the attempt row with
`status = 'success'` and `completed_at = NOW()`. -/
def _logAttemptSuccess (now : Int) (attemptId : Nat)
    (alog : List JobAttempt) : List JobAttempt :=
  alog.map fun a =>
    if a.id = attemptId then
      { a with status := some AttemptStatus.success, completed_at := some now }
    else a

/-- Model of `_handleJobSuccess` (job/_handle-success.ts): in one transaction, set the
job to completed with `completed_at = updated_at = NOW()` and the serialized
result, and log the attempt as success. `resultStr` stands for the outcome of
the `JSON.stringify` step (including its fallback stub), which happens before
the UPDATE. -/
def _handleJobSuccess (now : Int) (jobRow : Job) (resultStr : String)
    (attemptId : Nat) (alog : List JobAttempt) : Job × List JobAttempt :=
  ({ jobRow with
      status := JobStatus.completed
      completed_at := some now
      updated_at := now
      result := some resultStr },
   _logAttemptSuccess now attemptId alog)

/-- Model of `_markExpired` (job/_mark-expired.ts): UPDATE all rows with `status =
'running' AND started_at < NOW() - <minutes> minutes` to `status = 'expired',
updated_at = NOW()`. The statement does not touch `completed_at`. One minute
is 60000 ms; the source's `Math.round` on the minutes argument is a no-op
here because the argument is a `Nat`. -/
def _markExpired (now : Int) (maxAllowedRunDurationMinutes : Nat)
    (table : List Job) : List Job :=
  table.map fun r =>
    if r.status == JobStatus.running &&
        (match r.started_at with
          | some s => decide (s < now - (maxAllowedRunDurationMinutes * 60000 : Nat))
          | none => false) then
      { r with status := JobStatus.expired, updated_at := now }
    else r

/-- The completed_at/status relation exactly as claim C6 states it:
`completed_at` non-null iff status is completed, failed or expired. -/
def completedAtIffTerminalClaim (r : Job) : Prop :=
  r.completed_at ≠ none ↔
    (r.status = JobStatus.completed ∨ r.status = JobStatus.failed ∨
      r.status = JobStatus.expired)

instance (r : Job) : Decidable (completedAtIffTerminalClaim r) := by
  unfold completedAtIffTerminalClaim
  infer_instance

/-- Concrete stuck running row (`started_at = 0`, `completed_at` null) used
against the C6 claim and in the C6 witness. -/
def c6Job : Job :=
  { c1JobA with
      id := 13
      uid := "e1"
      status := JobStatus.running
      attempts := 1
      started_at := some 0 }

/-- Counterexample to C6 as stated: `_markExpired` at `now = 600000` (5-minute
threshold) turns the stuck running row into an expired row whose
`completed_at` is still null, so `completed_at` non-null iff terminal-status
fails for the expired state. -/
theorem markExpired_violates_completedAt_iff :
    _markExpired 600000 5 [c6Job] =
      [{ c6Job with status := JobStatus.expired, updated_at := 600000 }] ∧
    ¬ completedAtIffTerminalClaim
      { c6Job with status := JobStatus.expired, updated_at := 600000 } := by
  exact ⟨by decide, by decide⟩

/-- The corrected invariant: after any store transition, `completed_at` is
non-null iff the status is completed or failed; expired rows keep a null
`completed_at`. -/
def completedAtInv (r : Job) : Prop :=
  r.completed_at ≠ none ↔
    (r.status = JobStatus.completed ∨ r.status = JobStatus.failed)

instance (r : Job) : Decidable (completedAtInv r) := by
  unfold completedAtInv
  infer_instance

/-- Amended C6: every store transition (claim, mark-expired, success,
failure) preserves the corrected invariant `completed_at ≠ null ↔ status ∈
(completed, failed)`; in particular running-to-expired leaves `completed_at`
null. The executed job row is assumed to be in the claimed (running) state,
as produced by `_claimNextJob`. -/
theorem completedAt_inv_preserved (now : Int) (mins : Nat) (table : List Job)
    (jobRow : Job) (resultStr : String) (attemptId : Nat) (errMessage : String)
    (errDetails : Option String) (alog : List JobAttempt)
    (hnd : (table.map Job.id).Nodup)
    (htable : ∀ r ∈ table, completedAtInv r)
    (hrun : jobRow.status = JobStatus.running)
    (hinv : completedAtInv jobRow) :
    (∀ r ∈ (_claimNextJob now table).2, completedAtInv r) ∧
    (∀ r ∈ _markExpired now mins table, completedAtInv r) ∧
    completedAtInv (_handleJobSuccess now jobRow resultStr attemptId alog).1 ∧
    completedAtInv (_handleJobFailure now jobRow attemptId errMessage errDetails alog).1 := by
  have none_of_inv : ∀ x : Job, completedAtInv x →
      x.status ≠ JobStatus.completed → x.status ≠ JobStatus.failed →
      x.completed_at = none := by
    intro x hx hc hf
    by_contra hne
    rcases hx.mp hne with h | h
    · exact hc h
    · exact hf h
  refine ⟨?_, ?_, ?_, ?_⟩
  · intro r hr
    rcases hargmin : (table.filter (eligible now)).argmin Job.id with _ | j
    · simp only [_claimNextJob, hargmin] at hr
      exact htable r hr
    · have hjmem := List.argmin_mem hargmin
      have hjtab : j ∈ table := (List.mem_filter.mp hjmem).1
      obtain ⟨hjpend, _⟩ := (eligible_iff now j).mp (List.mem_filter.mp hjmem).2
      simp only [_claimNextJob, hargmin, List.mem_map] at hr
      obtain ⟨s, hs, hsr⟩ := hr
      by_cases hid : s.id = j.id
      · have hsj : s = j := List.inj_on_of_nodup_map hnd hs hjtab hid
        subst hsj
        simp only [if_pos hid] at hsr
        have hnone : s.completed_at = none :=
          none_of_inv s (htable s hs) (by simp [hjpend]) (by simp [hjpend])
        subst hsr
        simp [completedAtInv, claimUpdate, hnone]
      · simp only [if_neg hid] at hsr
        subst hsr
        exact htable s hs
  · intro r hr
    simp only [_markExpired, List.mem_map] at hr
    obtain ⟨s, hs, hsr⟩ := hr
    by_cases hcond : (s.status == JobStatus.running &&
        (match s.started_at with
          | some t => decide (t < now - (mins * 60000 : Nat))
          | none => false)) = true
    · simp only [if_pos hcond] at hsr
      have hsrun : s.status = JobStatus.running := by
        have := (Bool.and_eq_true _ _).mp hcond
        exact beq_iff_eq.mp this.1
      have hnone : s.completed_at = none :=
        none_of_inv s (htable s hs) (by simp [hsrun]) (by simp [hsrun])
      subst hsr
      simp [completedAtInv, hnone]
    · simp only [if_neg hcond] at hsr
      subst hsr
      exact htable s hs
  · simp [completedAtInv, _handleJobSuccess]
  · by_cases h : jobRow.max_attempts ≤ jobRow.attempts
    · simp [completedAtInv, _handleJobFailure, h]
    · have hnone : jobRow.completed_at = none :=
        none_of_inv jobRow hinv (by simp [hrun]) (by simp [hrun])
      simp [completedAtInv, _handleJobFailure, h, hnone]

/-- Witness for the amended C6 on concrete data: the table holding the stuck
running row, and a freshly claimed running job row, all preserve the
corrected invariant through the four transitions at `now = 600000`. -/
theorem completedAt_inv_preserved_witness :
    (∀ r ∈ (_claimNextJob 600000 [c6Job]).2, completedAtInv r) ∧
    (∀ r ∈ _markExpired 600000 5 [c6Job], completedAtInv r) ∧
    completedAtInv (_handleJobSuccess 600000 c6Job ("r") 3 []).1 ∧
    completedAtInv (_handleJobFailure 600000 c6Job 3 ("e") none []).1 :=
  completedAt_inv_preserved 600000 5 [c6Job] c6Job ("r") 3 ("e") none []
    (by decide) (by decide) rfl (by decide)

/-- Events published on the two type buses (`pubsubAttempt`, `pubsubDone`)
by the executor. -/
inductive Event
  | attempt (j : Job)
  | done (j : Job)
  deriving DecidableEq, Repr

/-- The `forEach` over a per-UID callback set in job/_execute.ts: the
callbacks run unwrapped and in order, and the first throw aborts the
iteration and propagates to the caller. Callbacks are modelled as
`Job → Except String Unit` (a thrown error is the `error` case). -/
def invokeUidCallbacks (cbs : List (Job → Except String Unit)) (j : Job) :
    Except String Unit :=
  match cbs with
  | [] => Except.ok ()
  | cb :: rest =>
      match cb j with
      | Except.ok _ => invokeUidCallbacks rest j
      | Except.error e => Except.error e

/-- The try/catch wrapper installed by `Jobs.#onEvent` (jobs.ts lines
1603-1635) around every type-bus subscriber before it is handed to
`pubsub.subscribe`: a throw from the callback is caught and logged, and the
wrapped callback returns normally. -/
def onEventWrap (cb : Job → Except String Unit) : Job → Except String Unit :=
  fun j =>
    match cb j with
    | Except.ok _ => Except.ok ()
    | Except.error _ => Except.ok ()

/-- The catch block of `_executeJob` (job/_execute.ts lines 48-58): run the
failure transition, publish the attempt event with the updated row, invoke
the per-UID attempt callbacks (unwrapped: a throw escapes the executor), and
when the updated row is truly failed publish done and invoke the per-UID done
callbacks (`_execOnDone`). Returns the bus events published by this block, in
order, and the error escaping `_executeJob`, if any. The published events
depend only on the job row, so the attempt log is not threaded through. -/
def _executeCatchBlock (now : Int) (jobRow : Job) (attemptId : Nat)
    (alog : List JobAttempt)
    (attemptCbs doneCbs : List (Job → Except String Unit))
    (errMessage : String) : List Event × Option String :=
  let failedJob := (_handleJobFailure now jobRow attemptId errMessage none alog).1
  match invokeUidCallbacks attemptCbs failedJob with
  | Except.error e2 => ([Event.attempt failedJob], some e2)
  | Except.ok _ =>
      if failedJob.status = JobStatus.failed then
        match invokeUidCallbacks doneCbs failedJob with
        | Except.error e3 =>
            ([Event.attempt failedJob, Event.done failedJob], some e3)
        | Except.ok _ =>
            ([Event.attempt failedJob, Event.done failedJob], none)
      else ([Event.attempt failedJob], none)

/-- The success side of the executor's try block (job/_execute.ts lines
36-47): run the success transition, publish the attempt event with the
completed row, invoke the per-UID attempt callbacks and then `_execOnDone`
(done publication plus per-UID done callbacks); these invocations sit inside
the try, so a throw from one of them is caught and diverts into the catch
block with the thrown error. -/
def _executeTrySuccess (now : Int) (jobRow : Job) (attemptId : Nat)
    (alog : List JobAttempt)
    (attemptCbs doneCbs : List (Job → Except String Unit))
    (resultStr : String) : List Event × Option String :=
  let completedJob := (_handleJobSuccess now jobRow resultStr attemptId alog).1
  match invokeUidCallbacks attemptCbs completedJob with
  | Except.error e2 =>
      let c := _executeCatchBlock now jobRow attemptId alog attemptCbs doneCbs e2
      (Event.attempt completedJob :: c.1, c.2)
  | Except.ok _ =>
      match invokeUidCallbacks doneCbs completedJob with
      | Except.error e3 =>
          let c := _executeCatchBlock now jobRow attemptId alog attemptCbs doneCbs e3
          (Event.attempt completedJob :: Event.done completedJob :: c.1, c.2)
      | Except.ok _ =>
          ([Event.attempt completedJob, Event.done completedJob], none)

/-- Model of `_executeJob` (job/_execute.ts) as a publication trace: after
`_logAttemptStart` inserts the attempt row (`attemptId`), the executor
publishes the claimed (running) row as an attempt event, invokes the per-UID
attempt callbacks (line 22, outside the try/catch, so a throw escapes to the
worker loop), then runs the handler — `houtcome` is the outcome of the
possibly timeout-wrapped invocation — and takes the success or failure path.
Returns the bus events in publication order and the error escaping
`_executeJob`, if any. -/
def _executeJob (now : Int) (jobRow : Job) (attemptId : Nat)
    (alog : List JobAttempt)
    (attemptCbs doneCbs : List (Job → Except String Unit))
    (houtcome : Except String String) : List Event × Option String :=
  match invokeUidCallbacks attemptCbs jobRow with
  | Except.error e => ([Event.attempt jobRow], some e)
  | Except.ok _ =>
      match houtcome with
      | Except.ok resultStr =>
          let s := _executeTrySuccess now jobRow attemptId alog attemptCbs
            doneCbs resultStr
          (Event.attempt jobRow :: s.1, s.2)
      | Except.error e =>
          let c := _executeCatchBlock now jobRow attemptId alog attemptCbs
            doneCbs e
          (Event.attempt jobRow :: c.1, c.2)

/-- C5: for one execution of a claimed (running) job whose subscriber
callbacks return normally, the bus publishes `attempt` with the running row
first, then `attempt` with the post-transition row `u`, and a `done u` event
exactly when `u` is terminal (completed or failed), after that attempt event;
a retry-requeue ends with `attempt` of the pending row and no `done`. -/
theorem executeJob_event_order (now : Int) (jobRow : Job) (attemptId : Nat)
    (alog : List JobAttempt)
    (attemptCbs doneCbs : List (Job → Except String Unit))
    (houtcome : Except String String)
    (hrun : jobRow.status = JobStatus.running)
    (hA : ∀ j, invokeUidCallbacks attemptCbs j = Except.ok ())
    (hD : ∀ j, invokeUidCallbacks doneCbs j = Except.ok ()) :
    ∃ u,
      (_executeJob now jobRow attemptId alog attemptCbs doneCbs houtcome).1 =
        [Event.attempt jobRow, Event.attempt u] ++
          (if u.status = JobStatus.completed ∨ u.status = JobStatus.failed
            then [Event.done u] else []) ∧
      (_executeJob now jobRow attemptId alog attemptCbs doneCbs houtcome).2 =
        none ∧
      jobRow.status = JobStatus.running ∧
      (∀ r, houtcome = Except.ok r →
        u = (_handleJobSuccess now jobRow r attemptId alog).1 ∧
        u.status = JobStatus.completed) ∧
      (∀ e, houtcome = Except.error e →
        u = (_handleJobFailure now jobRow attemptId e none alog).1 ∧
        (u.status = JobStatus.pending ∨ u.status = JobStatus.failed)) := by
  cases houtcome with
  | ok resultStr =>
      refine ⟨(_handleJobSuccess now jobRow resultStr attemptId alog).1,
        ?_, ?_, hrun, ?_, ?_⟩
      · simp [_executeJob, _executeTrySuccess, hA, hD, _handleJobSuccess]
      · simp [_executeJob, _executeTrySuccess, hA, hD]
      · intro r hr
        cases hr
        exact ⟨rfl, rfl⟩
      · intro e he
        exact Except.noConfusion he
  | error e =>
      refine ⟨(_handleJobFailure now jobRow attemptId e none alog).1,
        ?_, ?_, hrun, ?_, ?_⟩
      · by_cases hmax : jobRow.max_attempts ≤ jobRow.attempts
        · simp [_executeJob, _executeCatchBlock, hA, hD, _handleJobFailure, hmax]
        · simp [_executeJob, _executeCatchBlock, hA, hD, _handleJobFailure, hmax]
      · by_cases hmax : jobRow.max_attempts ≤ jobRow.attempts
        · simp [_executeJob, _executeCatchBlock, hA, hD, _handleJobFailure, hmax]
        · simp [_executeJob, _executeCatchBlock, hA, hD, _handleJobFailure, hmax]
      · intro r hr
        exact Except.noConfusion hr
      · intro e2 he2
        cases he2
        refine ⟨rfl, ?_⟩
        by_cases hmax : jobRow.max_attempts ≤ jobRow.attempts
        · right
          simp [_handleJobFailure, hmax]
        · left
          simp [_handleJobFailure, hmax]

/-- Concrete claimed running job used by the C5 witness (attempts 1 of 3,
exp backoff). -/
def c5Job : Job :=
  { c1JobA with
      id := 15
      uid := "u5"
      status := JobStatus.running
      attempts := 1
      started_at := some 80 }

/-- The requeued row after a non-terminal failure of `c5Job` at `now = 80`
(backoff 2^1 seconds). -/
def c5Requeued : Job :=
  { c5Job with
      status := JobStatus.pending
      run_at := 80 + 2000
      updated_at := 80 }

/-- The completed row after a success of `c5Job` at `now = 80`. -/
def c5Completed : Job :=
  { c5Job with
      status := JobStatus.completed
      completed_at := some 80
      updated_at := 80
      result := some ("res") }

/-- Witness for C5 on concrete data: a retry-requeue publishes
`attempt(running), attempt(pending)` with no done event and nothing escapes;
a success publishes `attempt(running), attempt(completed), done(completed)`. -/
theorem executeJob_event_order_witness :
    (_executeJob 80 c5Job 9 [] [] [] (Except.error ("boom5"))).1 =
      [Event.attempt c5Job, Event.attempt c5Requeued] ∧
    (_executeJob 80 c5Job 9 [] [] [] (Except.error ("boom5"))).2 = none ∧
    (_executeJob 80 c5Job 9 [] [] [] (Except.ok ("res"))).1 =
      [Event.attempt c5Job, Event.attempt c5Completed, Event.done c5Completed] := by
  obtain ⟨u, htr, hesc, -, -, hfail⟩ :=
    executeJob_event_order 80 c5Job 9 [] [] [] (Except.error ("boom5")) rfl
      (fun _ => rfl) (fun _ => rfl)
  obtain ⟨hu, -⟩ := hfail ("boom5") rfl
  obtain ⟨u2, htr2, -, -, hok2, -⟩ :=
    executeJob_event_order 80 c5Job 9 [] [] [] (Except.ok ("res")) rfl
      (fun _ => rfl) (fun _ => rfl)
  obtain ⟨hu2, -⟩ := hok2 ("res") rfl
  have h1 : u = c5Requeued := hu.trans (by decide)
  have h2 : u2 = c5Completed := hu2.trans (by decide)
  subst h1
  subst h2
  exact ⟨htr.trans (by decide), hesc, htr2.trans (by decide)⟩

/-- A per-UID subscriber callback that always throws. -/
def throwingCb : Job → Except String Unit := fun _ => Except.error ("boom8")

/-- Concrete running job whose uid has a throwing onAttemptFor callback
registered, used against claim C8. -/
def c8Job : Job :=
  { c1JobA with
      id := 14
      uid := "u8"
      status := JobStatus.running
      attempts := 1
      started_at := some 0 }

/-- Counterexample to C8 as stated: with a throwing per-UID attempt callback
registered, the executor run ends with the callback's error escaping into the
worker's execution path — the per-UID callbacks are not wrapped. -/
theorem uid_callback_error_escapes :
    (_executeJob 90 c8Job 10 [] [throwingCb] [] (Except.ok ("r"))).2 =
      some ("boom8") ∧
    (_executeJob 90 c8Job 10 [] [throwingCb] [] (Except.ok ("r"))).2 ≠ none := by
  exact ⟨rfl, by decide⟩

/-- Amended C8: the type-bus onDone/onAttempt subscribers registered through
`#onEvent` are wrapped so a thrown error is caught and logged and the wrapped
callback always returns normally; the per-UID onDoneFor/onAttemptFor
callbacks, however, run unwrapped in the executor, and an error thrown in the
pre-try invocation escapes `_executeJob` into the worker loop with only the
initial attempt event published. -/
theorem subscriber_error_handling (cb : Job → Except String Unit) (j : Job)
    (now : Int) (jobRow : Job) (attemptId : Nat) (alog : List JobAttempt)
    (attemptCbs doneCbs : List (Job → Except String Unit))
    (houtcome : Except String String) (e : String)
    (h : invokeUidCallbacks attemptCbs jobRow = Except.error e) :
    (onEventWrap cb j).isOk = true ∧
    (_executeJob now jobRow attemptId alog attemptCbs doneCbs houtcome).2 =
      some e ∧
    (_executeJob now jobRow attemptId alog attemptCbs doneCbs houtcome).1 =
      [Event.attempt jobRow] := by
  refine ⟨?_, ?_, ?_⟩
  · cases hcb : cb j <;> simp [onEventWrap, hcb, Except.isOk, Except.toBool]
  · simp [_executeJob, h]
  · simp [_executeJob, h]

/-- Witness for the amended C8: at concrete inputs the wrapped throwing
callback returns normally while the unwrapped per-UID one escapes. -/
theorem subscriber_error_handling_witness :
    (onEventWrap throwingCb c8Job).isOk = true ∧
    (_executeJob 91 c8Job 10 [] [throwingCb] [] (Except.error ("h"))).2 =
      some ("boom8") ∧
    (_executeJob 91 c8Job 10 [] [throwingCb] [] (Except.error ("h"))).1 =
      [Event.attempt c8Job] :=
  subscriber_error_handling throwingCb c8Job 91 c8Job 10 [] [throwingCb] []
    (Except.error ("h")) ("boom8") rfl

/-- Model of `tableNames` (jobs.ts lines 1015-1020): the configured table prefix
(default empty, may carry a schema qualifier and dot) concatenated with the
fixed suffixes used by every query. -/
def tableNames (tablePrefix : String) : String × String :=
  (tablePrefix ++ "__job", tablePrefix ++ "__job_attempt_log")

/-- The table-name schema exactly as claim C7 states it: the prefix followed
by the suffixes "job" and "job_attempt_log". -/
def tableNamesClaimed (tablePrefix : String) : String × String :=
  (tablePrefix ++ "job", tablePrefix ++ "job_attempt_log")

/-- The table-name schema with the corrected suffixes "__job" and
"__job_attempt_log", written from the amended claim. -/
def tableNamesAmended (tablePrefix : String) : String × String :=
  (tablePrefix ++ "__job", tablePrefix ++ "__job_attempt_log")

/-- Counterexample to C7 as stated: already at the default (empty) prefix the
job table is named "__job", not "job". -/
theorem tableNames_ne_claimed :
    tableNames ("") ≠ tableNamesClaimed ("") ∧
    (tableNames ("")).1 = "__job" ∧
    (tableNames ("")).2 = "__job_attempt_log" := by
  refine ⟨?_, rfl, rfl⟩
  intro h
  exact absurd (congrArg Prod.fst h) (by decide)

/-- Amended C7: for every configured prefix the two table names are exactly
the prefix concatenated with the fixed suffixes "__job" and
"__job_attempt_log". -/
theorem tableNames_amended_spec (tablePrefix : String) :
    tableNames tablePrefix = tableNamesAmended tablePrefix ∧
    (tableNames tablePrefix).1 = tablePrefix ++ "__job" ∧
    (tableNames tablePrefix).2 = tablePrefix ++ "__job_attempt_log" :=
  ⟨rfl, rfl, rfl⟩

/-- A thrown JS error as consumed by `checkDbHealth`: its `message` property
(possibly absent or empty) and its `String(error)` rendering. -/
structure JsError where
  message : Option String
  asString : String
  deriving DecidableEq, Repr

/-- The JS `error?.message || String(error)` fallback of checkDbHealth. -/
def errMessageOrString (e : JsError) : String :=
  match e.message with
  | some m => if m = "" then e.asString else m
  | none => e.asString

/-- Result record of a health check (utils/db-health.ts, DbHealthStatus). -/
structure DbHealthStatus where
  healthy : Bool
  latencyMs : Option Nat
  error : Option String
  timestamp : Int
  pgVersion : Option String
  deriving DecidableEq, Repr

/-- The `result.rows[0]?.version?.split(" ")[1]` extraction: the second
space-separated token of the version string. -/
def extractPgVersion (version : String) : Option String :=
  (version.splitOn (" ")).get? 1

/-- Model of `checkDbHealth` (utils/db-health.ts lines 46-76): the entire body is a
try/catch over the probe query `SELECT version(), NOW()`, so for every
outcome of the query it returns a `DbHealthStatus` record and never throws.
`queryOutcome` carries the version column on success or the thrown error;
`latency` is the measured `Date.now() - start` of the branch taken. -/
def checkDbHealth (queryOutcome : Except JsError String) (latency : Nat)
    (timestamp : Int) : DbHealthStatus :=
  match queryOutcome with
  | Except.ok version =>
      { healthy := true
        latencyMs := some latency
        error := none
        timestamp := timestamp
        pgVersion := extractPgVersion version }
  | Except.error e =>
      { healthy := false
        latencyMs := some latency
        error := some (errMessageOrString e)
        timestamp := timestamp
        pgVersion := none }

/-- C9: `checkDbHealth` is total over the probe query's outcome — it returns
a `DbHealthStatus` in both cases (never throws): on query success it reports
healthy with a non-null latency and a null error; on query failure it reports
unhealthy with the thrown error's message in the error field. -/
theorem checkDbHealth_spec (queryOutcome : Except JsError String)
    (latency : Nat) (timestamp : Int) :
    (∀ v, queryOutcome = Except.ok v →
      (checkDbHealth queryOutcome latency timestamp).healthy = true ∧
      (checkDbHealth queryOutcome latency timestamp).latencyMs = some latency ∧
      (checkDbHealth queryOutcome latency timestamp).error = none) ∧
    (∀ e, queryOutcome = Except.error e →
      (checkDbHealth queryOutcome latency timestamp).healthy = false ∧
      (checkDbHealth queryOutcome latency timestamp).error =
        some (errMessageOrString e)) := by
  constructor
  · rintro v rfl
    exact ⟨rfl, rfl, rfl⟩
  · rintro e rfl
    exact ⟨rfl, rfl⟩

/-- Concrete thrown error used by the C9 witness. -/
def c9Err : JsError :=
  { message := some ("conn refused"), asString := "Error: conn refused" }

/-- Witness for C9 at a concrete version string and a concrete thrown
error. -/
theorem checkDbHealth_spec_witness :
    (checkDbHealth (Except.ok ("PostgreSQL 16.3 on x86_64")) 5 1000).healthy =
      true ∧
    (checkDbHealth (Except.ok ("PostgreSQL 16.3 on x86_64")) 5 1000).latencyMs =
      some 5 ∧
    (checkDbHealth (Except.ok ("PostgreSQL 16.3 on x86_64")) 5 1000).error =
      none ∧
    (checkDbHealth (Except.error c9Err) 7 1001).healthy = false ∧
    (checkDbHealth (Except.error c9Err) 7 1001).error = some ("conn refused") := by
  have h1 :=
    (checkDbHealth_spec (Except.ok ("PostgreSQL 16.3 on x86_64")) 5 1000).1
      ("PostgreSQL 16.3 on x86_64") rfl
  have h2 := (checkDbHealth_spec (Except.error c9Err) 7 1001).2 c9Err rfl
  exact ⟨h1.1, h1.2.1, h1.2.2, h2.1, h2.2.trans (by decide)⟩

/-- Pagination options of `_fetchAll` (job/_find.ts): absent fields take the
destructuring defaults limit 10, offset 0, asc false. -/
structure FetchAllOptions where
  limit : Option Nat
  offset : Option Nat
  asc : Option Bool
  deriving Repr

/-- Calling `_fetchAll` with no pagination options (`options = {}`). -/
def noFetchOptions : FetchAllOptions :=
  { limit := none, offset := none, asc := none }

/-- The comparator of `ORDER BY id desc`. -/
def idDescLe (a b : Job) : Bool := decide (b.id ≤ a.id)

/-- The comparator of `ORDER BY id asc`. -/
def idAscLe (a b : Job) : Bool := decide (a.id ≤ b.id)

/-- Model of `_fetchAll` (job/_find.ts lines 17-42): SELECT the rows matching the
optional (pre-sanitized) where clause, ORDER BY id — descending unless `asc`
parses to true — then apply OFFSET and LIMIT with the destructuring defaults
10 / 0 / descending. The SELECT's output order is modelled by sorting the
table rows. -/
def _fetchAll (table : List Job) (wherePred : Option (Job → Bool))
    (options : FetchAllOptions) : List Job :=
  let lim := options.limit.getD 10
  let off := options.offset.getD 0
  let asc := options.asc.getD false
  let filtered :=
    match wherePred with
    | some p => table.filter p
    | none => table
  let ordered := filtered.mergeSort (if asc then idAscLe else idDescLe)
  (ordered.drop off).take lim

/-- C10: `_fetchAll` with no pagination options returns at most 10 rows,
in descending id order, all drawn from the matching rows, however many
matching rows the table holds. -/
theorem fetchAll_default_spec (table : List Job)
    (wherePred : Option (Job → Bool)) :
    (_fetchAll table wherePred noFetchOptions).length ≤ 10 ∧
    (_fetchAll table wherePred noFetchOptions).Pairwise
      (fun a b => b.id ≤ a.id) ∧
    (∀ r ∈ _fetchAll table wherePred noFetchOptions, r ∈ table) := by
  have htrans : ∀ a b c : Job, idDescLe a b = true → idDescLe b c = true →
      idDescLe a c = true := by
    intro a b c hab hbc
    simp only [idDescLe, decide_eq_true_eq] at *
    omega
  have htotal : ∀ a b : Job, (idDescLe a b || idDescLe b a) = true := by
    intro a b
    simp only [idDescLe, Bool.or_eq_true, decide_eq_true_eq]
    omega
  set filtered :=
    (match wherePred with
      | some p => table.filter p
      | none => table) with hfil
  have hfetch : _fetchAll table wherePred noFetchOptions =
      ((filtered.mergeSort idDescLe).drop 0).take 10 := by
    simp [_fetchAll, noFetchOptions, hfil]
  have hsorted := List.sorted_mergeSort htrans htotal filtered
  refine ⟨?_, ?_, ?_⟩
  · rw [hfetch]
    exact List.length_take_le 10 _
  · rw [hfetch, List.drop_zero]
    have hsub : List.Sublist ((filtered.mergeSort idDescLe).take 10)
        (filtered.mergeSort idDescLe) := List.take_sublist 10 _
    exact (List.Pairwise.sublist hsub hsorted).imp
      (fun h => by simpa [idDescLe] using h)
  · intro r hr
    rw [hfetch, List.drop_zero] at hr
    have hr2 : r ∈ filtered.mergeSort idDescLe := List.mem_of_mem_take hr
    have hr3 : r ∈ filtered := List.mem_mergeSort.mp hr2
    cases wherePred with
    | none => simpa [hfil] using hr3
    | some p =>
        simp only [hfil] at hr3
        exact List.mem_of_mem_filter hr3

/-- Concrete table of twelve rows (ids 1..12) used by the C10 witness. -/
def c10Table : List Job :=
  (List.range 12).map fun i => { c1JobA with id := i + 1 }

/-- Witness for C10 on the twelve-row table: the default call returns at most
10 of its rows in descending id order. -/
theorem fetchAll_default_spec_witness :
    (_fetchAll c10Table none noFetchOptions).length ≤ 10 ∧
    (_fetchAll c10Table none noFetchOptions).Pairwise
      (fun a b => b.id ≤ a.id) ∧
    (∀ r ∈ _fetchAll c10Table none noFetchOptions, r ∈ c10Table) :=
  fetchAll_default_spec c10Table none

end Steve
